import Mathlib

/-!
Verification of the lanzaboote specification against the sources:
  src/rust/tool/server/src/policy.rs   (signing policy)
  src/rust/lanzatool/src/pe.rs         (build-time PE section embedding)
  src/rust/stub/src/main.rs            (boot-time stub pipeline)
Every definition is a shallow embedding of the corresponding Rust item;
firmware calls are modelled by explicit oracles recording their outcomes.
-/

set_option autoImplicit false

namespace Lanzaboote

/-! ## Policy engine: src/rust/tool/server/src/policy.rs -/

/-- Mirrors lanzaboote_tool::pe::StubParameters as consumed by policy.rs:
three store paths, the kernel command line as a token list, and the
os-release contents (unused by TrivialPolicy). -/
structure StubParameters where
  lanzaboote_store_path : String
  kernel_store_path : String
  initrd_store_path : String
  kernel_cmdline : List String
  os_release_contents : String

/-- Mirrors TrivialPolicy: an optional allow-list of cmdline items
(the HashSet is modelled by a list, membership by List.contains). -/
structure TrivialPolicy where
  allowed_kernel_cmdline_items : Option (List String)

/-- The state of the disk: which paths exist. Path::exists in
trusted_store_path is a query against this abstraction. -/
def FileSystem := String → Bool

/-- Mirrors TrivialPolicy::trusted_store_path: store_path.exists(). -/
def trusted_store_path (fs : FileSystem) (store_path : String) : Bool :=
  fs store_path

/-- Mirrors TrivialPolicy::trusted_stub_parameters: false if any of the
three store paths is untrusted; then, if an allow-list is configured,
false at the first cmdline item outside it; otherwise true. -/
def trusted_stub_parameters (fs : FileSystem) (policy : TrivialPolicy)
    (parameters : StubParameters) : Bool :=
  if !(trusted_store_path fs parameters.lanzaboote_store_path)
      || !(trusted_store_path fs parameters.kernel_store_path)
      || !(trusted_store_path fs parameters.initrd_store_path) then
    false
  else
    match policy.allowed_kernel_cmdline_items with
    | some allowed_cmdline_items =>
        parameters.kernel_cmdline.all fun item => allowed_cmdline_items.contains item
    | none => true

/-- Claim C8: trusted_stub_parameters returns false whenever any one of the
three referenced store paths does not exist on disk, even if the other two
exist and every cmdline token is allow-listed; and trusted_store_path fs p
is true exactly when p exists on disk. -/
theorem trusted_stub_parameters_requires_paths (fs : FileSystem)
    (policy : TrivialPolicy) (parameters : StubParameters)
    (hmiss : fs parameters.lanzaboote_store_path = false
      ∨ fs parameters.kernel_store_path = false
      ∨ fs parameters.initrd_store_path = false) :
    trusted_stub_parameters fs policy parameters = false
      ∧ ∀ p : String, trusted_store_path fs p = true ↔ fs p = true := by
  refine ⟨?_, fun p => Iff.rfl⟩
  unfold trusted_stub_parameters trusted_store_path
  rcases hmiss with h | h | h <;> simp [h]

/-- Witness for C8 at a concrete input: the lanzaboote path is absent while
the other two exist and the single cmdline token is allow-listed. -/
theorem trusted_stub_parameters_requires_paths_witness :
    trusted_stub_parameters (fun p => p == "k" || p == "i")
      ⟨some ["quiet"]⟩ ⟨"l", "k", "i", ["quiet"], ""⟩ = false := by
  exact (trusted_stub_parameters_requires_paths (fun p => p == "k" || p == "i")
    ⟨some ["quiet"]⟩ ⟨"l", "k", "i", ["quiet"], ""⟩ (Or.inl (by decide))).1

/-- Claim C10: when the allow-list is present but empty, parameters whose
cmdline is empty (and whose three paths exist) are still accepted, while any
non-empty cmdline is rejected; when the allow-list is absent, the cmdline is
never checked and any cmdline is accepted provided the three paths exist. -/
theorem trusted_stub_parameters_allowlist_edge (fs : FileSystem)
    (parameters : StubParameters)
    (hl : fs parameters.lanzaboote_store_path = true)
    (hk : fs parameters.kernel_store_path = true)
    (hi : fs parameters.initrd_store_path = true) :
    (parameters.kernel_cmdline = [] →
      trusted_stub_parameters fs ⟨some []⟩ parameters = true)
    ∧ (parameters.kernel_cmdline ≠ [] →
      trusted_stub_parameters fs ⟨some []⟩ parameters = false)
    ∧ trusted_stub_parameters fs ⟨none⟩ parameters = true := by
  unfold trusted_stub_parameters trusted_store_path
  refine ⟨fun hnil => ?_, fun hne => ?_, ?_⟩
  · simp [hl, hk, hi, hnil]
  · cases hcl : parameters.kernel_cmdline with
    | nil => exact absurd hcl hne
    | cons t ts => simp [hl, hk, hi, hcl]
  · simp [hl, hk, hi]

/-- Witness for C10 at concrete inputs: every path exists; the empty cmdline
is accepted under the empty allow-list, a one-token cmdline is rejected under
it, and the same one-token cmdline is accepted when no allow-list is set. -/
theorem trusted_stub_parameters_allowlist_edge_witness :
    trusted_stub_parameters (fun _ => true) ⟨some []⟩ ⟨"l", "k", "i", [], ""⟩ = true
    ∧ trusted_stub_parameters (fun _ => true) ⟨some []⟩ ⟨"l", "k", "i", ["x"], ""⟩ = false
    ∧ trusted_stub_parameters (fun _ => true) ⟨none⟩ ⟨"l", "k", "i", ["x"], ""⟩ = true := by
  refine ⟨?_, ?_, ?_⟩
  · exact (trusted_stub_parameters_allowlist_edge (fun _ => true)
      ⟨"l", "k", "i", [], ""⟩ rfl rfl rfl).1 rfl
  · exact (trusted_stub_parameters_allowlist_edge (fun _ => true)
      ⟨"l", "k", "i", ["x"], ""⟩ rfl rfl rfl).2.1 (by decide)
  · exact (trusted_stub_parameters_allowlist_edge (fun _ => true)
      ⟨"l", "k", "i", ["x"], ""⟩ rfl rfl rfl).2.2

/-! ## Build-time section planner: src/rust/lanzatool/src/pe.rs -/

/-- A PE section header as goblin exposes it: u32 virtual_size and
virtual_address. -/
structure SectionHeader where
  virtual_size : Nat
  virtual_address : Nat
deriving DecidableEq

/-- The PE optional header field read by image_base:
windows_fields.image_base, a u64. -/
structure OptionalHeader where
  image_base : Nat
deriving DecidableEq

/-- The parts of a parsed PE binary that stub_offset reads: the optional
header (absent in malformed binaries) and the section table. -/
structure ParsedPE where
  optional_header : Option OptionalHeader
  sections : List SectionHeader
deriving DecidableEq

/-- Outcome of a lanzatool computation: a value, a recoverable error
returned to the caller (an anyhow Result), or a process abort coming from
expect or unwrap. -/
inductive ToolOutcome (A : Type) where
  | ok : A → ToolOutcome A
  | err : String → ToolOutcome A
  | panicked : String → ToolOutcome A
deriving DecidableEq

/-- True exactly on the recoverable-error constructor. -/
def ToolOutcome.is_recoverable_error {A : Type} : ToolOutcome A → Bool
  | .err _ => true
  | _ => false

/-- Mirrors image_base in pe.rs: reads windows_fields.image_base from the
optional header and aborts via expect when the header is absent. -/
def image_base (pe : ParsedPE) : ToolOutcome Nat :=
  match pe.optional_header with
  | some header => .ok header.image_base
  | none => .panicked "Failed to find optional header"

/-- Mirrors stub_offset in pe.rs, starting from the parsed PE (reading and
parsing the on-disk file, whose failures become recoverable errors, is
outside this model): the last section's virtual_size + virtual_address (u32
addition, wrapping) widened to u64 and added to the image base (u64
addition, wrapping); aborts via expect when the section table is empty. -/
def stub_offset (pe : ParsedPE) : ToolOutcome Nat :=
  match image_base pe with
  | .panicked m => .panicked m
  | .err m => .err m
  | .ok base =>
    match pe.sections.getLast? with
    | none => .panicked "Failed to calculate offset"
    | some s => .ok (((s.virtual_size + s.virtual_address) % 2 ^ 32 + base) % 2 ^ 64)

/-- The cumulative offset plan of lanzaboote_image: the first value is
placed at the stub offset and each later value at the previous offset plus
the previous value's byte size (u64 addition, wrapping). This generalises
the four inline additions at pe.rs lines 25-28 to any list of sizes. -/
def plan_offsets (start : Nat) : List Nat → List Nat
  | [] => []
  | size :: rest => start :: plan_offsets ((start + size) % 2 ^ 64) rest

/-- The four section offsets that lanzaboote_image computes (pe.rs lines
25-28) from the stub offset and the byte sizes of the os-release file, the
cmdline file and the initrd-path file; the kernel-path size is never used. -/
def lanzaboote_image_offsets (stub_offs os_release_size cmdline_size
    initrd_path_size : Nat) : List Nat :=
  let os_release_offs := stub_offs
  let kernel_cmdline_offs := (os_release_offs + os_release_size) % 2 ^ 64
  let initrd_path_offs := (kernel_cmdline_offs + cmdline_size) % 2 ^ 64
  let kernel_path_offs := (initrd_path_offs + initrd_path_size) % 2 ^ 64
  [os_release_offs, kernel_cmdline_offs, initrd_path_offs, kernel_path_offs]

theorem plan_offsets_length (start : Nat) (sizes : List Nat) :
    (plan_offsets start sizes).length = sizes.length := by
  induction sizes generalizing start with
  | nil => rfl
  | cons a rest ih => simp [plan_offsets, ih]

theorem plan_offsets_getD_zero (start : Nat) (a : Nat) (rest : List Nat) :
    (plan_offsets start (a :: rest)).getD 0 0 = start := rfl

theorem plan_offsets_step (start : Nat) (sizes : List Nat) (i : Nat)
    (hi : i + 1 < sizes.length) :
    (plan_offsets start sizes).getD (i + 1) 0
      = ((plan_offsets start sizes).getD i 0 + sizes.getD i 0) % 2 ^ 64 := by
  induction sizes generalizing start i with
  | nil => simp at hi
  | cons a rest ih =>
    cases i with
    | zero =>
      simp only [List.length_cons, Nat.lt_add_one_iff] at hi
      cases rest with
      | nil => simp at hi
      | cons b rest2 => simp [plan_offsets]
    | succ j =>
      simp only [List.length_cons, Nat.add_lt_add_iff_right] at hi
      simpa [plan_offsets] using ih ((start + a) % 2 ^ 64) j hi

theorem plan_offsets_chain (start : Nat) (sizes : List Nat)
    (hpos : ∀ sz ∈ sizes.dropLast, 0 < sz)
    (hov : start + sizes.sum < 2 ^ 64) :
    List.Chain' (· < ·) (plan_offsets start sizes) := by
  induction sizes generalizing start with
  | nil => simp [plan_offsets]
  | cons a rest ih =>
    cases rest with
    | nil => simp [plan_offsets]
    | cons b rest2 =>
      have hmod : (start + a) % 2 ^ 64 = start + a := by
        apply Nat.mod_eq_of_lt
        simp only [List.sum_cons] at hov
        omega
      have ha : 0 < a := hpos a (by simp [List.dropLast])
      have htail : List.Chain' (· < ·) (plan_offsets ((start + a) % 2 ^ 64) (b :: rest2)) := by
        apply ih
        · intro sz hsz
          apply hpos
          simp only [List.dropLast] at hsz ⊢
          simp [hsz]
        · rw [hmod]
          simp only [List.sum_cons] at hov ⊢
          omega
      rw [plan_offsets]
      rw [plan_offsets] at htail ⊢
      exact List.chain'_cons.mpr ⟨by omega, htail⟩

/-- Claim C5, amended: for every stub binary with an optional header and at
least one section, the stub offset is the last section's end (u32-wrapped
virtual_size + virtual_address) plus the image base, u64-wrapped; the
planner assigns one offset per value, the first offset equals the stub
offset and each subsequent offset equals the previous offset plus the
previous value's byte length (mod 2 ^ 64); the offsets are strictly
increasing provided every value before the last is non-empty and the sum
does not wrap around 2 ^ 64; and the four offsets of lanzaboote_image are
an instance of this plan. As stated, the claim fails for zero-length
values (see the counterexample). -/
theorem plan_offsets_cumulative (h : OptionalHeader) (ss : List SectionHeader)
    (s : SectionHeader) (start : Nat) (sizes : List Nat)
    (hstart : stub_offset ⟨some h, ss ++ [s]⟩ = .ok start) :
    start = ((s.virtual_size + s.virtual_address) % 2 ^ 32 + h.image_base) % 2 ^ 64
    ∧ (plan_offsets start sizes).length = sizes.length
    ∧ (∀ a rest, sizes = a :: rest → (plan_offsets start sizes).getD 0 0 = start)
    ∧ (∀ i, i + 1 < sizes.length →
        (plan_offsets start sizes).getD (i + 1) 0
          = ((plan_offsets start sizes).getD i 0 + sizes.getD i 0) % 2 ^ 64)
    ∧ ((∀ sz ∈ sizes.dropLast, 0 < sz) → start + sizes.sum < 2 ^ 64 →
        List.Chain' (· < ·) (plan_offsets start sizes))
    ∧ (∀ a b c d : Nat, lanzaboote_image_offsets start a b c = plan_offsets start [a, b, c, d]) := by
  refine ⟨?_, plan_offsets_length start sizes, ?_, plan_offsets_step start sizes,
    plan_offsets_chain start sizes, fun a b c d => rfl⟩
  · simp only [stub_offset, image_base, List.getLast?_concat,
      ToolOutcome.ok.injEq] at hstart
    exact hstart.symm
  · intro a rest hs
    subst hs
    rfl

/-- Witness for amended claim C5 at a concrete input: a stub with image base
4096 and one section ending at 4608, and four values of sizes 3, 4, 5, 6;
the planner yields strictly increasing offsets 8704, 8707, 8711, 8716. -/
theorem plan_offsets_cumulative_witness :
    plan_offsets 8704 [3, 4, 5, 6] = [8704, 8707, 8711, 8716]
    ∧ List.Chain' (· < ·) (plan_offsets 8704 [3, 4, 5, 6]) := by
  have h := plan_offsets_cumulative ⟨4096⟩ [] ⟨512, 4096⟩ 8704 [3, 4, 5, 6] (by decide)
  exact ⟨by decide, h.2.2.2.2.1 (by decide) (by decide)⟩

/-- Counterexample to claim C5 as stated: embedding a first value of zero
bytes makes the second offset equal to the first, so the produced offsets
are not strictly increasing. -/
theorem plan_offsets_counterexample :
    stub_offset ⟨some ⟨4096⟩, [⟨512, 4096⟩]⟩ = .ok 8704
    ∧ plan_offsets 8704 [0, 5] = [8704, 8704]
    ∧ ¬ List.Chain' (· < ·) (plan_offsets 8704 [0, 5]) := by
  refine ⟨by decide, by decide, ?_⟩
  intro hchain
  simp [plan_offsets, List.chain'_cons] at hchain

/-- Claim C9, amended: on an input binary with no optional header or no
sections the planner does not return a recoverable error: it aborts the
process via expect. -/
theorem stub_offset_malformed_panics (pe : ParsedPE)
    (hmal : pe.optional_header = none ∨ pe.sections = []) :
    (∃ m, stub_offset pe = .panicked m)
      ∧ (stub_offset pe).is_recoverable_error = false := by
  rcases hmal with h | h
  · refine ⟨⟨"Failed to find optional header", ?_⟩, ?_⟩ <;>
      simp [stub_offset, image_base, h, ToolOutcome.is_recoverable_error]
  · cases hopt : pe.optional_header with
    | none =>
      refine ⟨⟨"Failed to find optional header", ?_⟩, ?_⟩ <;>
        simp [stub_offset, image_base, hopt, ToolOutcome.is_recoverable_error]
    | some header =>
      refine ⟨⟨"Failed to calculate offset", ?_⟩, ?_⟩ <;>
        simp [stub_offset, image_base, hopt, h, ToolOutcome.is_recoverable_error]

/-- Witness for amended claim C9: a binary with no optional header and no
sections makes the planner abort, not return a recoverable error. -/
theorem stub_offset_malformed_panics_witness :
    (stub_offset ⟨none, []⟩).is_recoverable_error = false :=
  (stub_offset_malformed_panics ⟨none, []⟩ (Or.inl rfl)).2

/-- Counterexample to claim C9 as stated: at the two explicit malformed
inputs the planner panics with an expect message rather than returning a
recoverable error result. -/
theorem stub_offset_counterexample :
    stub_offset ⟨none, [⟨512, 4096⟩]⟩ = .panicked "Failed to find optional header"
    ∧ stub_offset ⟨some ⟨4096⟩, []⟩ = .panicked "Failed to calculate offset"
    ∧ (stub_offset ⟨none, [⟨512, 4096⟩]⟩).is_recoverable_error = false
    ∧ (stub_offset ⟨some ⟨4096⟩, []⟩).is_recoverable_error = false := by
  refine ⟨rfl, rfl, rfl, rfl⟩

/-! ## Boot-time configuration extraction: src/rust/stub/src/main.rs -/

/-- The uefi Status values the modelled stub code distinguishes. -/
inductive Status where
  | success
  | invalidParameter
  | notFound
  | securityViolation
  | deviceError
  | aborted
deriving DecidableEq

/-- The section-level view of a loaded PE image: named sections with raw
byte contents (bytes as Nat below 256). -/
abbrev PEImage := List (String × List Nat)

/-- Modelled from the spec: pe_section of the stub (its source file
pe_section.rs is not under src) locates the named section of the loaded
image and returns its raw bytes. -/
def pe_section (pe_data : PEImage) (sec : String) : Option (List Nat) :=
  (pe_data.find? fun s => s.1 == sec).map Prod.snd

/-- One step of strict UTF-8 decoding: the scalar value encoded at the head
of the byte list together with the number of bytes it occupies; none on any
ill-formed head (bad leading byte, bad continuation byte, overlong form,
surrogate, value beyond U+10FFFF). -/
def utf8DecodeOne : List Nat → Option (Nat × Nat)
  | [] => none
  | b0 :: rest =>
    if b0 < 0x80 then some (b0, 1)
    else if 0xC0 ≤ b0 ∧ b0 < 0xE0 then
      match rest with
      | b1 :: _ =>
        if (0x80 ≤ b1 ∧ b1 < 0xC0) then
          let cp := (b0 - 0xC0) * 0x40 + (b1 - 0x80)
          if 0x80 ≤ cp then some (cp, 2) else none
        else none
      | [] => none
    else if 0xE0 ≤ b0 ∧ b0 < 0xF0 then
      match rest with
      | b1 :: b2 :: _ =>
        if (0x80 ≤ b1 ∧ b1 < 0xC0) ∧ (0x80 ≤ b2 ∧ b2 < 0xC0) then
          let cp := (b0 - 0xE0) * 0x1000 + (b1 - 0x80) * 0x40 + (b2 - 0x80)
          if 0x800 ≤ cp ∧ ¬(0xD800 ≤ cp ∧ cp < 0xE000) then some (cp, 3) else none
        else none
      | _ => none
    else if 0xF0 ≤ b0 ∧ b0 < 0xF5 then
      match rest with
      | b1 :: b2 :: b3 :: _ =>
        if (0x80 ≤ b1 ∧ b1 < 0xC0) ∧ (0x80 ≤ b2 ∧ b2 < 0xC0) ∧ (0x80 ≤ b3 ∧ b3 < 0xC0) then
          let cp := (b0 - 0xF0) * 0x40000 + (b1 - 0x80) * 0x1000
            + (b2 - 0x80) * 0x40 + (b3 - 0x80)
          if 0x10000 ≤ cp ∧ cp < 0x110000 then some (cp, 4) else none
        else none
      | _ => none
    else none

/-- Fuelled strict UTF-8 decoding loop; one unit of fuel per input byte is
enough because every decoding step consumes at least one byte. -/
def utf8DecodeAux : Nat → List Nat → Option (List Nat)
  | _, [] => some []
  | 0, _ :: _ => none
  | fuel + 1, b :: rest =>
    match utf8DecodeOne (b :: rest) with
    | none => none
    | some (cp, k) => (utf8DecodeAux fuel ((b :: rest).drop k)).map fun cps => cp :: cps

/-- Modelled from the spec: decoding a PE section as a UTF-8 string; the
result is the list of Unicode scalar values, none when the bytes are not
valid UTF-8. -/
def utf8Decode (bytes : List Nat) : Option (List Nat) :=
  utf8DecodeAux bytes.length bytes

/-- Modelled from the uefi crate contract used at main.rs line 87:
CString16::try_from on a Rust string succeeds exactly when every character
is non-null and UCS-2 representable; the value is kept as the scalar
list. -/
def cstring16_of_scalars (scalars : List Nat) : Option (List Nat) :=
  if scalars.all fun c => decide (0 < c) && decide (c < 0x10000)
  then some scalars else none

/-- Modelled from the spec: pe_section_as_string decodes the named section
as a UTF-8 string; the result is kept as the scalar list. -/
def pe_section_as_string (pe_data : PEImage) (sec : String) : Option (List Nat) :=
  (pe_section pe_data sec).bind utf8Decode

/-- The Rust Option::ok_or combinator followed by the question mark: a
missing value becomes the given error status. -/
def ok_or {A : Type} (o : Option A) (e : Status) : Except Status A :=
  match o with
  | some a => .ok a
  | none => .error e

/-- The TryInto conversion of a byte slice into a 32-byte array used by
extract_hash: succeeds exactly on 32 input bytes. -/
def to_hash_array (bytes : List Nat) : Option (List Nat) :=
  if bytes.length = 32 then some bytes else none

/-- Mirrors extract_string in the stub: pe_section_as_string (section
lookup plus strict UTF-8 decoding) followed by CString16 conversion, every
failure mapped to INVALID_PARAMETER. -/
def extract_string (pe_data : PEImage) (sec : String) : Except Status (List Nat) := do
  let string ← ok_or (pe_section_as_string pe_data sec) .invalidParameter
  ok_or (cstring16_of_scalars string) .invalidParameter

/-- Mirrors extract_hash in the stub: the named section must exist and hold
exactly 32 bytes; every failure is INVALID_PARAMETER. -/
def extract_hash (pe_data : PEImage) (sec : String) : Except Status (List Nat) := do
  let bytes ← ok_or (pe_section pe_data sec) .invalidParameter
  ok_or (to_hash_array bytes) .invalidParameter

/-- Mirrors the EmbeddedConfiguration struct of the stub; strings are kept
as UCS-2 scalar lists, hashes as raw byte lists. -/
structure EmbeddedConfiguration where
  kernel_filename : List Nat
  kernel_hash : List Nat
  initrd_filename : List Nat
  initrd_hash : List Nat
  cmdline : List Nat
deriving DecidableEq

/-- Mirrors EmbeddedConfiguration::new: the five extractions in source
order (.kernelp, .kernelh, .initrdp, .initrdh, .cmdline); the first failure
aborts the whole construction. -/
def EmbeddedConfiguration.new (file_data : PEImage) :
    Except Status EmbeddedConfiguration := do
  let kernel_filename ← extract_string file_data ".kernelp"
  let kernel_hash ← extract_hash file_data ".kernelh"
  let initrd_filename ← extract_string file_data ".initrdp"
  let initrd_hash ← extract_hash file_data ".initrdh"
  let cmdline ← extract_string file_data ".cmdline"
  pure ⟨kernel_filename, kernel_hash, initrd_filename, initrd_hash, cmdline⟩

/-- A string section is well formed when it exists, is valid UTF-8 and is
UCS-2 convertible. -/
def well_formed_string_section (pe_data : PEImage) (sec : String) : Bool :=
  ((pe_section_as_string pe_data sec).bind cstring16_of_scalars).isSome

/-- A hash section is well formed when it exists and holds exactly 32
bytes. -/
def well_formed_hash_section (pe_data : PEImage) (sec : String) : Bool :=
  ((pe_section pe_data sec).bind to_hash_array).isSome

theorem ok_or_ok {A : Type} (a : A) (e : Status) : ok_or (some a) e = .ok a := rfl

theorem ok_or_none {A : Type} (e : Status) : ok_or (none : Option A) e = .error e := rfl

theorem extract_string_ok_iff (pe_data : PEImage) (sec : String) :
    (∃ s, extract_string pe_data sec = .ok s)
      ↔ well_formed_string_section pe_data sec = true := by
  unfold extract_string well_formed_string_section
  cases ho : pe_section_as_string pe_data sec with
  | none => simp [ok_or_none, Bind.bind, Except.bind]
  | some scalars =>
    cases hcs : cstring16_of_scalars scalars with
    | none => simp [ok_or_ok, ok_or_none, hcs, Bind.bind, Except.bind]
    | some s => simp [ok_or_ok, hcs, Bind.bind, Except.bind]

theorem extract_string_err (pe_data : PEImage) (sec : String)
    (h : well_formed_string_section pe_data sec = false) :
    extract_string pe_data sec = .error .invalidParameter := by
  unfold extract_string
  unfold well_formed_string_section at h
  cases ho : pe_section_as_string pe_data sec with
  | none => simp [ok_or_none, Bind.bind, Except.bind]
  | some scalars =>
    rw [ho] at h
    cases hcs : cstring16_of_scalars scalars with
    | none => simp [ok_or_ok, ok_or_none, hcs, Bind.bind, Except.bind]
    | some s => simp [hcs] at h

theorem extract_hash_ok_iff (pe_data : PEImage) (sec : String) :
    (∃ b, extract_hash pe_data sec = .ok b)
      ↔ well_formed_hash_section pe_data sec = true := by
  unfold extract_hash well_formed_hash_section
  cases ho : pe_section pe_data sec with
  | none => simp [ok_or_none, Bind.bind, Except.bind]
  | some bytes =>
    cases hta : to_hash_array bytes with
    | none => simp [ok_or_ok, ok_or_none, hta, Bind.bind, Except.bind]
    | some b => simp [ok_or_ok, hta, Bind.bind, Except.bind]

theorem extract_hash_err (pe_data : PEImage) (sec : String)
    (h : well_formed_hash_section pe_data sec = false) :
    extract_hash pe_data sec = .error .invalidParameter := by
  unfold extract_hash
  unfold well_formed_hash_section at h
  cases ho : pe_section pe_data sec with
  | none => simp [ok_or_none, Bind.bind, Except.bind]
  | some bytes =>
    rw [ho] at h
    cases hta : to_hash_array bytes with
    | none => simp [ok_or_ok, ok_or_none, hta, Bind.bind, Except.bind]
    | some b => simp [hta] at h

theorem extract_string_cases (pe_data : PEImage) (sec : String) :
    (∃ s, extract_string pe_data sec = .ok s
        ∧ well_formed_string_section pe_data sec = true)
    ∨ (extract_string pe_data sec = .error .invalidParameter
        ∧ well_formed_string_section pe_data sec = false) := by
  cases hw : well_formed_string_section pe_data sec with
  | false => exact Or.inr ⟨extract_string_err pe_data sec hw, rfl⟩
  | true =>
    obtain ⟨s, hs⟩ := (extract_string_ok_iff pe_data sec).mpr hw
    exact Or.inl ⟨s, hs, rfl⟩

theorem extract_hash_cases (pe_data : PEImage) (sec : String) :
    (∃ b, extract_hash pe_data sec = .ok b
        ∧ well_formed_hash_section pe_data sec = true)
    ∨ (extract_hash pe_data sec = .error .invalidParameter
        ∧ well_formed_hash_section pe_data sec = false) := by
  cases hw : well_formed_hash_section pe_data sec with
  | false => exact Or.inr ⟨extract_hash_err pe_data sec hw, rfl⟩
  | true =>
    obtain ⟨b, hb⟩ := (extract_hash_ok_iff pe_data sec).mpr hw
    exact Or.inl ⟨b, hb, rfl⟩

/-- Claim C6, amended: the extractor processes exactly the five sections
.kernelp, .kernelh, .initrdp, .initrdh and .cmdline (it never reads
.osrel); it yields a configuration exactly when every string section is
present, valid UTF-8 and UCS-2 convertible and every hash section is
present with exactly 32 bytes; otherwise it fails wholesale with
INVALID_PARAMETER and no partial configuration is ever returned. -/
theorem embedded_configuration_wholesale (file_data : PEImage) :
    ((∃ c, EmbeddedConfiguration.new file_data = .ok c)
      ↔ (well_formed_string_section file_data ".kernelp" = true
        ∧ well_formed_hash_section file_data ".kernelh" = true
        ∧ well_formed_string_section file_data ".initrdp" = true
        ∧ well_formed_hash_section file_data ".initrdh" = true
        ∧ well_formed_string_section file_data ".cmdline" = true))
    ∧ ((∃ c, EmbeddedConfiguration.new file_data = .ok c)
      ∨ EmbeddedConfiguration.new file_data = .error .invalidParameter) := by
  rcases extract_string_cases file_data ".kernelp" with ⟨v1, hv1, hw1⟩ | ⟨hv1, hw1⟩ <;>
  rcases extract_hash_cases file_data ".kernelh" with ⟨v2, hv2, hw2⟩ | ⟨hv2, hw2⟩ <;>
  rcases extract_string_cases file_data ".initrdp" with ⟨v3, hv3, hw3⟩ | ⟨hv3, hw3⟩ <;>
  rcases extract_hash_cases file_data ".initrdh" with ⟨v4, hv4, hw4⟩ | ⟨hv4, hw4⟩ <;>
  rcases extract_string_cases file_data ".cmdline" with ⟨v5, hv5, hw5⟩ | ⟨hv5, hw5⟩ <;>
    simp [EmbeddedConfiguration.new, hv1, hv2, hv3, hv4, hv5, hw1, hw2, hw3, hw4, hw5,
      Bind.bind, Except.bind, Pure.pure, Except.pure]

/-- A concrete image carrying the five sections the extractor reads, all
well formed, and no .osrel section. -/
def image_without_osrel : PEImage :=
  [(".kernelp", [107]), (".kernelh", List.replicate 32 0),
   (".initrdp", [105]), (".initrdh", List.replicate 32 1),
   (".cmdline", [])]

/-- Witness for amended claim C6 at a concrete image whose five sections
are all well formed: extraction succeeds. -/
theorem embedded_configuration_wholesale_witness :
    ∃ c, EmbeddedConfiguration.new image_without_osrel = Except.ok c :=
  (embedded_configuration_wholesale image_without_osrel).1.mpr
    ⟨rfl, rfl, rfl, rfl, rfl⟩

/-- Counterexample to claim C6 as stated: the extractor succeeds on a
concrete image that has no .osrel section at all, so a missing .osrel does
not make extraction fail. -/
theorem embedded_configuration_osrel_counterexample :
    pe_section image_without_osrel ".osrel" = none
    ∧ EmbeddedConfiguration.new image_without_osrel
      = .ok ⟨[107], List.replicate 32 0, [105], List.replicate 32 1, []⟩ := by
  exact ⟨rfl, rfl⟩

/-! ## Build-time embedding against boot-time extraction: claim C1 -/

/-- UTF-8 encoding of one Unicode scalar value. -/
def utf8EncodeChar (c : Nat) : List Nat :=
  if c < 0x80 then [c]
  else if c < 0x800 then [0xC0 + c / 0x40, 0x80 + c % 0x40]
  else if c < 0x10000 then
    [0xE0 + c / 0x1000, 0x80 + (c / 0x40) % 0x40, 0x80 + c % 0x40]
  else
    [0xF0 + c / 0x40000, 0x80 + (c / 0x1000) % 0x40,
     0x80 + (c / 0x40) % 0x40, 0x80 + c % 0x40]

/-- UTF-8 encoding of a scalar string: the bytes the build tool writes into
the temporary section-content files. -/
def utf8Encode (scalars : List Nat) : List Nat :=
  (scalars.map utf8EncodeChar).flatten

/-- Mirrors kernel_cmdline.join(" ") at pe.rs line 21 on scalar-string
tokens. -/
def join_with_space : List (List Nat) → List Nat
  | [] => []
  | [t] => t
  | t :: ts => t ++ 32 :: join_with_space ts

/-- Mirrors esp_relative_path_string in pe.rs: the path below the ESP root
with every slash replaced by a backslash and one leading backslash; the
strip of the ESP mount point is modelled by taking the ESP-relative part
of the path as input. -/
def esp_relative_path_string (relative_path : List Nat) : List Nat :=
  92 :: relative_path.map fun c => if c = 47 then 92 else c

/-- Mirrors lanzaboote_image in pe.rs at the section level: objcopy
appends four named sections to the stub binary, holding the os-release
bytes, the cmdline tokens joined with single spaces, and the two
ESP-relative path strings, text written out as UTF-8. The function receives
no hash values and emits no .kernelh or .initrdh section. -/
def lanzaboote_image (lanzaboote_stub : PEImage) (os_release : List Nat)
    (kernel_cmdline : List (List Nat)) (kernel_path initrd_path : List Nat) :
    PEImage :=
  lanzaboote_stub ++
    [(".osrel", os_release),
     (".cmdline", utf8Encode (join_with_space kernel_cmdline)),
     (".initrdp", utf8Encode (esp_relative_path_string initrd_path)),
     (".kernelp", utf8Encode (esp_relative_path_string kernel_path))]

/-- The image embedded at the C1 failing input: a one-section stub,
os-release N, cmdline token init, kernel path EFI/k and initrd path EFI/i
below the ESP root. -/
def c1_embedded_image : PEImage :=
  lanzaboote_image [(".text", [144])] [78] [[105, 110, 105, 116]]
    [69, 70, 73, 47, 107] [69, 70, 73, 47, 105]

/-- Claim C1, evaluated at the failing input: the build-time embedder emits
no .kernelh or .initrdh section (it is not even given the hashes), so the
boot-time extractor fails on the embedded image with INVALID_PARAMETER
instead of returning the embedded configuration; the three string sections
that are embedded do round-trip individually. -/
theorem lanzaboote_image_roundtrip_fails :
    pe_section c1_embedded_image ".kernelh" = none
    ∧ pe_section c1_embedded_image ".initrdh" = none
    ∧ EmbeddedConfiguration.new c1_embedded_image = .error .invalidParameter
    ∧ extract_string c1_embedded_image ".kernelp" = .ok [92, 69, 70, 73, 92, 107]
    ∧ extract_string c1_embedded_image ".initrdp" = .ok [92, 69, 70, 73, 92, 105]
    ∧ extract_string c1_embedded_image ".cmdline" = .ok [105, 110, 105, 116] := by
  exact ⟨rfl, rfl, rfl, rfl, rfl, rfl⟩

/-! ## Boot paths: boot_linux_unchecked and boot_linux_uefi in main.rs -/

/-- The observable events of one boot attempt, in program order. -/
inductive Event where
  | loadKernel (ok : Bool)
  | installInitrd
  | startKernel (status : Status)
  | uninstallInitrd (ok : Bool)
  | queryLoaderFeatures (ok : Bool)
  | measureImage (ok : Bool)
  | exportEfiVariables (ok : Bool)
  | collectCompanions (fs_ok : Bool)
  | exportPcrEfiVariables (ok : Bool)
  | decideBoot (unchecked : Bool)
deriving DecidableEq

/-- The final control outcome of a stub function: a returned status, as
main recovers it with .status(), or a Rust abort raised by expect or
unwrap. -/
inductive Outcome where
  | ret (status : Status)
  | panicked
deriving DecidableEq

/-- Outcomes of the firmware calls of boot_linux_unchecked: pe_loader
Image::load, InitrdLoader::new, the status returned by kernel.start, and
InitrdLoader::uninstall; none means success, some e is the error status. -/
structure UncheckedBootOracle where
  load : Option Status
  install : Option Status
  start_status : Status
  uninstall : Option Status
deriving DecidableEq

/-- Outcomes of the firmware calls of boot_linux_uefi:
BootServices::load_image, open_protocol_exclusive on the loaded image,
whether the cmdline byte length fits u32 (the unwrap at main.rs line 167),
InitrdLoader::new, the status of start_image, and
InitrdLoader::uninstall. -/
structure UefiBootOracle where
  load_image : Option Status
  open_protocol : Option Status
  cmdline_fits : Bool
  install : Option Status
  start_status : Status
  uninstall : Option Status
deriving DecidableEq

/-- Mirrors boot_linux_unchecked (main.rs lines 118-134): Image::load
aborts via expect on failure; InitrdLoader::new installs the virtual
initrd device, its error propagated by the question mark; kernel.start
runs; uninstall runs exactly once after start returns and its error is
propagated by the question mark at line 132, otherwise the kernel start
status is returned. -/
def boot_linux_unchecked (o : UncheckedBootOracle) : List Event × Outcome :=
  match o.load with
  | some _ => ([Event.loadKernel false], Outcome.panicked)
  | none =>
    match o.install with
    | some e => ([Event.loadKernel true], Outcome.ret e)
    | none =>
      match o.uninstall with
      | some e =>
        ([Event.loadKernel true, Event.installInitrd,
          Event.startKernel o.start_status, Event.uninstallInitrd false],
          Outcome.ret e)
      | none =>
        ([Event.loadKernel true, Event.installInitrd,
          Event.startKernel o.start_status, Event.uninstallInitrd true],
          Outcome.ret o.start_status)

/-- Mirrors boot_linux_uefi (main.rs lines 143-180): load_image and
open_protocol_exclusive propagate their errors before any install (under
Secure Boot, load_image is where SECURITY_VIOLATION arises); the cmdline
length unwrap can abort; then install, start_image and a single uninstall
mirror the unchecked path. -/
def boot_linux_uefi (o : UefiBootOracle) : List Event × Outcome :=
  match o.load_image with
  | some e => ([Event.loadKernel false], Outcome.ret e)
  | none =>
    match o.open_protocol with
    | some e => ([Event.loadKernel true], Outcome.ret e)
    | none =>
      match o.cmdline_fits with
      | false => ([Event.loadKernel true], Outcome.panicked)
      | true =>
        match o.install with
        | some e => ([Event.loadKernel true], Outcome.ret e)
        | none =>
          match o.uninstall with
          | some e =>
            ([Event.loadKernel true, Event.installInitrd,
              Event.startKernel o.start_status, Event.uninstallInitrd false],
              Outcome.ret e)
          | none =>
            ([Event.loadKernel true, Event.installInitrd,
              Event.startKernel o.start_status, Event.uninstallInitrd true],
              Outcome.ret o.start_status)

/-- The number of installInitrd events of a trace. -/
def count_install : List Event → Nat
  | [] => 0
  | Event.installInitrd :: rest => count_install rest + 1
  | _ :: rest => count_install rest

/-- The number of uninstallInitrd events of a trace (attempted uninstalls,
successful or not). -/
def count_uninstall : List Event → Nat
  | [] => 0
  | Event.uninstallInitrd _ :: rest => count_uninstall rest + 1
  | _ :: rest => count_uninstall rest

/-- A trace in which the virtual initrd device is scoped to the boot
attempt: uninstalls equal installs, at most one install, and when an
install happens the whole trace is load, install, start, uninstall in that
order. -/
def scoped_initrd_trace (t : List Event) : Prop :=
  count_uninstall t = count_install t
  ∧ count_install t ≤ 1
  ∧ (0 < count_install t →
      ∃ s b, t = [Event.loadKernel true, Event.installInitrd,
        Event.startKernel s, Event.uninstallInitrd b])

theorem scoped_load_only (b : Bool) : scoped_initrd_trace [Event.loadKernel b] := by
  refine ⟨?_, ?_, fun h => ?_⟩
  · simp [count_install, count_uninstall]
  · simp [count_install]
  · simp [count_install] at h

theorem scoped_full (s : Status) (b : Bool) :
    scoped_initrd_trace [Event.loadKernel true, Event.installInitrd,
      Event.startKernel s, Event.uninstallInitrd b] := by
  refine ⟨?_, ?_, fun _ => ⟨s, b, rfl⟩⟩ <;> simp [count_install, count_uninstall]

/-- Claim C2, amended: in both boot paths the virtual initrd device is
installed only after the kernel image has been loaded (not before load, as
the claim states) and before kernel start; whenever it is installed it is
uninstalled exactly once after control returns from the kernel start, for
every start outcome; when the kernel load or the install itself fails
(including the fallback-path security violation, which arises at
load_image before any install) the device is never installed and never
uninstalled; install, start and uninstall form a strictly nested
consecutive region. -/
theorem initrd_device_scoped (ou : UncheckedBootOracle) (uu : UefiBootOracle) :
    scoped_initrd_trace (boot_linux_unchecked ou).1
    ∧ scoped_initrd_trace (boot_linux_uefi uu).1 := by
  constructor
  · rcases ou with ⟨load, install, s, u⟩
    cases load with
    | some e => exact scoped_load_only false
    | none =>
      cases install with
      | some e => exact scoped_load_only true
      | none =>
        cases u with
        | some e => exact scoped_full s false
        | none => exact scoped_full s true
  · rcases uu with ⟨li, op, cf, inst, s, u⟩
    cases li with
    | some e => exact scoped_load_only false
    | none =>
      cases op with
      | some e => exact scoped_load_only true
      | none =>
        cases cf with
        | false => exact scoped_load_only true
        | true =>
          cases inst with
          | some e => exact scoped_load_only true
          | none =>
            cases u with
            | some e => exact scoped_full s false
            | none => exact scoped_full s true

/-- Witness for amended claim C2 at a concrete oracle: the fully
successful unchecked boot has a scoped initrd-device trace. -/
theorem initrd_device_scoped_witness :
    scoped_initrd_trace
      (boot_linux_unchecked ⟨none, none, Status.success, none⟩).1 :=
  (initrd_device_scoped ⟨none, none, Status.success, none⟩
    ⟨none, none, true, none, Status.success, none⟩).1

/-- Counterexample to claim C2 as stated, at explicit concrete oracles: on
the fallback path a security violation at load_image leaves a trace with
zero uninstalls (not exactly one for every load outcome), and on the
successful unchecked path the install event comes after the kernel load
event, not before it. -/
theorem initrd_device_counterexample :
    (boot_linux_uefi ⟨some Status.securityViolation, none, true, none,
        Status.success, none⟩).1 = [Event.loadKernel false]
    ∧ count_uninstall (boot_linux_uefi ⟨some Status.securityViolation, none, true,
        none, Status.success, none⟩).1 = 0
    ∧ (boot_linux_unchecked ⟨none, none, Status.success, none⟩).1
      = [Event.loadKernel true, Event.installInitrd,
         Event.startKernel Status.success, Event.uninstallInitrd true] := by
  exact ⟨rfl, rfl, rfl⟩

/-! ## Integrity verification and the main pipeline: main.rs lines 182-353 -/

/-- Flip bit i of a byte string: bit i % 8 of byte i / 8. -/
def flip_bit (bytes : List Nat) (i : Nat) : List Nat :=
  bytes.set (i / 8) (Nat.xor (bytes.getD (i / 8) 0) (2 ^ (i % 8)))

/-- Mirrors main.rs lines 238-239 over an arbitrary digest function
standing for Sha256::digest: the two independent verification booleans,
each a byte-for-byte comparison of the recomputed digest against the
embedded hash. -/
def verify_hashes (digest : List Nat → List Nat) (config : EmbeddedConfiguration)
    (kernel_data initrd_data : List Nat) : Bool × Bool :=
  (digest kernel_data == config.kernel_hash,
   digest initrd_data == config.initrd_hash)

/-- Claim C3: is_kernel_hash_correct is true exactly when digest(K) equals
the embedded kernel hash byte for byte, and independently
is_initrd_hash_correct is true exactly when digest(I) equals the embedded
initrd hash; if the embedded hash equals digest(K) the kernel check
passes, and flipping one bit of K makes it fail for every digest function
that maps the flipped input to a different digest (as SHA-256 does barring
a collision). -/
theorem verify_hashes_correct (digest : List Nat → List Nat)
    (config : EmbeddedConfiguration) (kernel_data initrd_data : List Nat)
    (i : Nat)
    (hcoll : digest (flip_bit kernel_data i) ≠ digest kernel_data) :
    ((verify_hashes digest config kernel_data initrd_data).1 = true
      ↔ digest kernel_data = config.kernel_hash)
    ∧ ((verify_hashes digest config kernel_data initrd_data).2 = true
      ↔ digest initrd_data = config.initrd_hash)
    ∧ (config.kernel_hash = digest kernel_data →
        (verify_hashes digest config kernel_data initrd_data).1 = true)
    ∧ (config.kernel_hash = digest kernel_data →
        (verify_hashes digest config (flip_bit kernel_data i) initrd_data).1
          = false) := by
  refine ⟨?_, ?_, fun hk => ?_, fun hk => ?_⟩
  · simp [verify_hashes]
  · simp [verify_hashes]
  · simp [verify_hashes, hk]
  · simp only [verify_hashes, beq_eq_false_iff_ne, ne_eq]
    rw [← hk] at hcoll
    simpa using hcoll

/-- Witness for C3 at a concrete input: the identity digest, kernel bytes
00 with embedded hash 00, initrd bytes 07 with embedded hash 07; the check
passes, and after flipping bit 0 of the kernel it fails. -/
theorem verify_hashes_correct_witness :
    (verify_hashes (fun l => l) ⟨[], [0], [], [7], []⟩ [0] [7]).1 = true
    ∧ (verify_hashes (fun l => l) ⟨[], [0], [], [7], []⟩ (flip_bit [0] 0) [7]).1
      = false := by
  have h := verify_hashes_correct (fun l => l) ⟨[], [0], [], [7], []⟩ [0] [7] 0
    (by decide)
  exact ⟨h.2.2.1 rfl, h.2.2.2 rfl⟩

/-- Outcomes of the firmware calls made by main after the kernel and
initrd files were read: the loader-features query (consumed by if-let,
failure swallowed), measure_image (guarded by expect),
export_efi_variables (guarded by expect), get_image_file_system for
companion collection (failure skips collection), the swallowed
export_pcr_efi_variables, and the oracles of the two boot paths. -/
structure MainOracle where
  loader_features : Option Status
  measure : Option Status
  export_variables : Option Status
  companions_fs : Option Status
  export_pcr : Option Status
  unchecked : UncheckedBootOracle
  uefi : UefiBootOracle
deriving DecidableEq

/-- Mirrors main (main.rs lines 238-353) from the hash comparison onward:
the two verification booleans are computed exactly as at lines 238-239;
the loader-features query failure is swallowed; measure_image and
export_efi_variables abort via expect on failure; companion collection and
the PCR variable export run best-effort; then the decision at line 312
boots unchecked when both booleans hold and falls back to the firmware
loader otherwise. -/
def main_boot_flow (digest : List Nat → List Nat)
    (config : EmbeddedConfiguration) (kernel_data initrd_data : List Nat)
    (o : MainOracle) : List Event × Outcome :=
  match o.measure with
  | some _ =>
    ([Event.queryLoaderFeatures o.loader_features.isNone,
      Event.measureImage false], Outcome.panicked)
  | none =>
    match o.export_variables with
    | some _ =>
      ([Event.queryLoaderFeatures o.loader_features.isNone,
        Event.measureImage true, Event.exportEfiVariables false],
        Outcome.panicked)
    | none =>
      if (verify_hashes digest config kernel_data initrd_data).1
          && (verify_hashes digest config kernel_data initrd_data).2 then
        ([Event.queryLoaderFeatures o.loader_features.isNone,
          Event.measureImage true, Event.exportEfiVariables true,
          Event.collectCompanions o.companions_fs.isNone,
          Event.exportPcrEfiVariables o.export_pcr.isNone,
          Event.decideBoot true] ++ (boot_linux_unchecked o.unchecked).1,
          (boot_linux_unchecked o.unchecked).2)
      else
        ([Event.queryLoaderFeatures o.loader_features.isNone,
          Event.measureImage true, Event.exportEfiVariables true,
          Event.collectCompanions o.companions_fs.isNone,
          Event.exportPcrEfiVariables o.export_pcr.isNone,
          Event.decideBoot false] ++ (boot_linux_uefi o.uefi).1,
          (boot_linux_uefi o.uefi).2)

theorem boot_linux_uefi_no_panic (o : UefiBootOracle)
    (h : o.cmdline_fits = true) : ∃ s, (boot_linux_uefi o).2 = Outcome.ret s := by
  rcases o with ⟨li, op, cf, inst, s, u⟩
  subst h
  cases li with
  | some e => exact ⟨e, rfl⟩
  | none =>
    cases op with
    | some e => exact ⟨e, rfl⟩
    | none =>
      cases inst with
      | some e => exact ⟨e, rfl⟩
      | none =>
        cases u with
        | some e => exact ⟨e, rfl⟩
        | none => exact ⟨s, rfl⟩

/-- Claim C4: when the pre-decision steps do not abort for unrelated
reasons, the pipeline decides unchecked boot exactly when both
verification booleans are true and firmware fallback otherwise, with
measurement, companion collection and PCR export all recorded before the
decision in every case; and a hash mismatch never aborts the pipeline: the
fallback path returns a status (possibly a failure status from the
firmware loader) rather than aborting. -/
theorem boot_decision_follows_verification (digest : List Nat → List Nat)
    (config : EmbeddedConfiguration) (kernel_data initrd_data : List Nat)
    (o : MainOracle) (hm : o.measure = none) (he : o.export_variables = none) :
    (main_boot_flow digest config kernel_data initrd_data o).1
      = [Event.queryLoaderFeatures o.loader_features.isNone,
         Event.measureImage true, Event.exportEfiVariables true,
         Event.collectCompanions o.companions_fs.isNone,
         Event.exportPcrEfiVariables o.export_pcr.isNone,
         Event.decideBoot ((verify_hashes digest config kernel_data initrd_data).1
           && (verify_hashes digest config kernel_data initrd_data).2)]
        ++ (if (verify_hashes digest config kernel_data initrd_data).1
              && (verify_hashes digest config kernel_data initrd_data).2
            then (boot_linux_unchecked o.unchecked).1
            else (boot_linux_uefi o.uefi).1)
    ∧ (((verify_hashes digest config kernel_data initrd_data).1
          && (verify_hashes digest config kernel_data initrd_data).2) = false →
        o.uefi.cmdline_fits = true →
        ∃ s, (main_boot_flow digest config kernel_data initrd_data o).2
          = Outcome.ret s) := by
  constructor
  · simp only [main_boot_flow, hm, he]
    cases hcond : (verify_hashes digest config kernel_data initrd_data).1
        && (verify_hashes digest config kernel_data initrd_data).2 <;>
      simp [hcond]
  · intro hcond hfits
    simp only [main_boot_flow, hm, he, hcond]
    simpa using boot_linux_uefi_no_panic o.uefi hfits

/-- Witness for C4 at a concrete input: identity digest, a kernel whose
digest differs from the embedded hash, every pre-decision step
succeeding; the trace measures and collects companions first and then
decides the fallback path, which runs to a returned status. -/
theorem boot_decision_follows_verification_witness :
    (main_boot_flow (fun l => l) ⟨[], [0], [], [1], []⟩ [9] [1]
      ⟨none, none, none, none, none, ⟨none, none, Status.success, none⟩,
        ⟨none, none, true, none, Status.securityViolation, none⟩⟩).1
      = [Event.queryLoaderFeatures true, Event.measureImage true,
         Event.exportEfiVariables true, Event.collectCompanions true,
         Event.exportPcrEfiVariables true, Event.decideBoot false,
         Event.loadKernel true, Event.installInitrd,
         Event.startKernel Status.securityViolation,
         Event.uninstallInitrd true] := by
  have h := boot_decision_follows_verification (fun l => l) ⟨[], [0], [], [1], []⟩
    [9] [1]
    ⟨none, none, none, none, none, ⟨none, none, Status.success, none⟩,
      ⟨none, none, true, none, Status.securityViolation, none⟩⟩ rfl rfl
  exact h.1.trans (by decide)

/-- Claim C7, amended: in the stub as written only the loader-features
query, the companion file-system acquisition and the PCR-variable export
are swallowed best-effort (the outcome does not depend on them); a
measure_image failure or an export_efi_variables failure aborts the boot
attempt via expect, and an initrd device uninstall failure is propagated
as the returned status by the question mark in the boot paths. -/
theorem best_effort_partition (digest : List Nat → List Nat)
    (config : EmbeddedConfiguration) (kernel_data initrd_data : List Nat)
    (o : MainOracle) (e : Status) :
    (o.measure = some e →
      (main_boot_flow digest config kernel_data initrd_data o).2
        = Outcome.panicked)
    ∧ (o.measure = none → o.export_variables = some e →
      (main_boot_flow digest config kernel_data initrd_data o).2
        = Outcome.panicked)
    ∧ (∀ lf cfs ep,
      (main_boot_flow digest config kernel_data initrd_data
        { o with
            loader_features := lf
            companions_fs := cfs
            export_pcr := ep }).2
        = (main_boot_flow digest config kernel_data initrd_data o).2)
    ∧ (∀ s, (boot_linux_unchecked ⟨none, none, s, some e⟩).2
        = Outcome.ret e) := by
  refine ⟨fun hm => ?_, fun hm he => ?_, fun lf cfs ep => ?_, fun s => rfl⟩
  · simp [main_boot_flow, hm]
  · simp [main_boot_flow, hm, he]
  · rcases o with ⟨lf0, m, ev, cfs0, ep0, bu, bf⟩
    cases m with
    | some em => simp [main_boot_flow]
    | none =>
      cases ev with
      | some ee => simp [main_boot_flow]
      | none =>
        cases hcond : (verify_hashes digest config kernel_data initrd_data).1
            && (verify_hashes digest config kernel_data initrd_data).2 <;>
          simp [main_boot_flow, hcond]

/-- Witness for amended C7 at concrete inputs: a measure failure aborts
the pipeline, and an uninstall failure after a successful kernel start is
returned as the status. -/
theorem best_effort_partition_witness :
    (main_boot_flow (fun l => l) ⟨[], [0], [], [1], []⟩ [0] [1]
      ⟨none, some Status.deviceError, none, none, none,
        ⟨none, none, Status.success, none⟩,
        ⟨none, none, true, none, Status.success, none⟩⟩).2 = Outcome.panicked
    ∧ (boot_linux_unchecked ⟨none, none, Status.success,
        some Status.deviceError⟩).2 = Outcome.ret Status.deviceError := by
  have h := best_effort_partition (fun l => l) ⟨[], [0], [], [1], []⟩ [0] [1]
    ⟨none, some Status.deviceError, none, none, none,
      ⟨none, none, Status.success, none⟩,
      ⟨none, none, true, none, Status.success, none⟩⟩ Status.deviceError
  exact ⟨h.1 rfl, h.2.2.2 Status.success⟩

/-- Counterexample to claim C7 as stated, at explicit concrete inputs: a
measurement failure makes the pipeline abort via expect instead of being
logged and swallowed, an EFI variable export failure likewise, and an
uninstall failure is propagated as the return status instead of being
swallowed. -/
theorem best_effort_counterexample :
    (main_boot_flow (fun l => l) ⟨[], [0], [], [1], []⟩ [0] [1]
      ⟨none, some Status.deviceError, none, none, none,
        ⟨none, none, Status.success, none⟩,
        ⟨none, none, true, none, Status.success, none⟩⟩).2 = Outcome.panicked
    ∧ (main_boot_flow (fun l => l) ⟨[], [0], [], [1], []⟩ [0] [1]
      ⟨none, none, some Status.deviceError, none, none,
        ⟨none, none, Status.success, none⟩,
        ⟨none, none, true, none, Status.success, none⟩⟩).2 = Outcome.panicked
    ∧ (boot_linux_unchecked ⟨none, none, Status.success,
        some Status.deviceError⟩).2 = Outcome.ret Status.deviceError := by
  exact ⟨rfl, rfl, rfl⟩

end Lanzaboote
